import Mathlib

/-!
Verification development for the basket-streak-bot repository (src/run.py).

The Python source is shallowly embedded below:
* `condition_q1_lt_q2` mirrors run.py lines 28-37 (observation extractor);
* `api_get_loop` / `api_get` mirror run.py lines 44-76 (API client);
* `get_team_games` mirrors the client-side sort/truncate of run.py lines 127-140;
* `sfStep` / `streak_and_freq` mirror run.py lines 152-183 (streak analyzer);
* `candidatesOf` mirrors the candidate-building filter of run.py lines 227-247;
* `rank` mirrors the sort/truncate of run.py lines 249-256.

Python integers are embedded as `Int`/`Nat`; the float `freq` is embedded as `ℚ`
(the arithmetic `ok_count / usable * 100.0` is exact at the values the claims
mention); dictionary fields that may be absent are `Option`; a `raise` is
`Except.error`.
-/

namespace BasketStreakBot

/-- run.py line 24: `TOP_N = 10`. -/
def TOP_N : Nat := 10

/-- run.py line 25: `LAST_GAMES_MAX = 15`. -/
def LAST_GAMES_MAX : Nat := 15

/-- One raw game record, keeping the fields run.py reads: the date string
(embedded as an `Option Nat` timestamp, `none` for a missing or unparseable
date) and the four quarter scores `scores.home.quarter_1`,
`scores.away.quarter_1`, `scores.home.quarter_2`, `scores.away.quarter_2`,
each possibly absent (`None` in Python). -/
structure Game where
  date : Option Nat
  homeQ1 : Option Int
  awayQ1 : Option Int
  homeQ2 : Option Int
  awayQ2 : Option Int
deriving DecidableEq

/-- run.py lines 28-37: returns `None` when any of the four quarter fields is
`None` (the check `None in (q1, q1a, q2, q2a)` tests for `None`, not
truthiness, so a score of `0` is present data), otherwise
`total_q1 < total_q2`. -/
def condition_q1_lt_q2 (game : Game) : Option Bool :=
  match game.homeQ1, game.awayQ1, game.homeQ2, game.awayQ2 with
  | some q1, some q1a, some q2, some q2a => some (decide (q1 + q1a < q2 + q2a))
  | _, _, _, _ => none

/-- Outcome of one HTTP attempt inside `api_get` (run.py lines 57-59):
the `requests.get` call raises (`netFail`), `r.json()` raises (`badJson`),
or a JSON body is obtained with an HTTP status, an `errors` field that may be
non-empty, and a `response` array. -/
inductive Attempt (α : Type) where
  | netFail
  | badJson (status : Nat)
  | json (status : Nat) (hasErrors : Bool) (response : List α)
deriving DecidableEq

/-- run.py lines 56-76, the `for attempt in range(max_retries)` loop.
`getAttempt i` is the outcome the network would produce for attempt `i`.
Every branch of the loop body either returns (line 71) or raises
(lines 61, 65, 69, and an uncaught exception from `requests.get` on line 57),
so the `time.sleep(1 + attempt)` on line 74 and the next loop iteration are
unreachable: the embedding never recurses on `fuel`.  `fuel = 0` is the
fall-through `raise` on line 76. -/
def api_get_loop {α : Type} (getAttempt : Nat → Attempt α) :
    Nat → Nat → Except String (List α)
  | _, 0 => .error "API request failed after retries"
  | attempt, _ + 1 =>
    match getAttempt attempt with
    | .netFail => .error "requests exception propagates uncaught"
    | .badJson _ => .error "API response is not JSON"
    | .json status hasErrors response =>
      if status ≠ 200 then .error "HTTP status error"
      else if hasErrors then .error "API error"
      else .ok response

/-- run.py lines 44-76: the key check on line 48, then the attempt loop. -/
def api_get {α : Type} (keyPresent : Bool) (getAttempt : Nat → Attempt α)
    (max_retries : Nat) : Except String (List α) :=
  if keyPresent then api_get_loop getAttempt 0 max_retries
  else .error "API_SPORTS_KEY is empty"

/-- run.py lines 128-137: `parse_date` maps a missing or unparseable date to
`datetime.min`, embedded as `0`. -/
def parse_date (g : Game) : Nat := g.date.getD 0

/-- The descending-date order used by `sorted(games, key=parse_date,
reverse=True)` on run.py line 139: `a` may precede `b` when `b`'s date is no
later than `a`'s. -/
def dateGe (a b : Game) : Prop := parse_date b ≤ parse_date a

instance : DecidableRel dateGe := fun a b => Nat.decLe (parse_date b) (parse_date a)

/-- run.py lines 115-140 after the fetch: sort the returned games by date
descending (CPython `sorted` is a stable sort, matched by `insertionSort`)
and keep the first `last_n`. -/
def get_team_games (games : List Game) (last_n : Nat) : List Game :=
  (List.insertionSort dateGe games).take last_n

/-- The loop state of `streak_and_freq` (run.py lines 160-164):
`usable`, `ok_count`, `streak`, `streak_active`. -/
structure SFState where
  usable : Nat
  ok_count : Nat
  streak : Nat
  streak_active : Bool
deriving DecidableEq

/-- Initial state: `usable = 0`, `ok_count = 0`, `streak = 0`,
`streak_active = True`. -/
def sfInit : SFState := ⟨0, 0, 0, true⟩

/-- One iteration of the loop on run.py lines 166-180: a `None` condition is
skipped entirely (`continue`), otherwise `usable` is incremented, `ok_count`
on a hit, and the streak logic runs while `streak_active`. -/
def sfStep (st : SFState) (g : Game) : SFState :=
  match condition_q1_lt_q2 g with
  | none => st
  | some cond =>
    let st1 : SFState :=
      { st with usable := st.usable + 1,
                ok_count := if cond then st.ok_count + 1 else st.ok_count }
    if st1.streak_active then
      if cond then { st1 with streak := st1.streak + 1 }
      else { st1 with streak_active := false }
    else st1

/-- run.py lines 152-183: fold the loop over the games (latest first), then
`freq = ok_count / usable * 100.0` when `usable > 0`, else `0.0`.
Returns `(streak, freq, usable)`. -/
def streak_and_freq (games : List Game) : Nat × ℚ × Nat :=
  let st := games.foldl sfStep sfInit
  let freq : ℚ := if st.usable > 0 then (st.ok_count : ℚ) / (st.usable : ℚ) * 100 else 0
  (st.streak, freq, st.usable)

/-- A team record as consumed by `main` (run.py lines 227-233): the `id` and
`name` fields (Python truthiness: id `0`/`None` is embedded as `0`, name
`""`/`None` as `""`) and the games its `get_team_games` call returns. -/
structure TeamEntry where
  team_id : Nat
  team_name : String
  games : List Game
deriving DecidableEq

/-- One entry of the `candidates` list built on run.py lines 239-247. -/
structure Candidate where
  country : String
  league : String
  team_id : Nat
  team_name : String
  streak : Nat
  freq : ℚ
  usable : Nat
deriving DecidableEq

/-- The dictionary appended on run.py lines 239-247. -/
def mkCandidate (country league_name : String) (t : TeamEntry)
    (s : Nat) (f : ℚ) (u : Nat) : Candidate :=
  ⟨country, country ++ " — " ++ league_name, t.team_id, t.team_name, s, f, u⟩

/-- run.py lines 227-247, the per-team loop for one league: skip a team with
falsy id or name (line 230), compute `streak_and_freq` over its last
`LAST_GAMES_MAX` games, skip it when `usable < 5` (line 236), otherwise
append a candidate. -/
def candidatesOf (country league_name : String) : List TeamEntry → List Candidate
  | [] => []
  | t :: ts =>
    if t.team_id = 0 ∨ t.team_name = "" then candidatesOf country league_name ts
    else if (streak_and_freq (get_team_games t.games LAST_GAMES_MAX)).2.2 < 5 then
      candidatesOf country league_name ts
    else
      mkCandidate country league_name t
        (streak_and_freq (get_team_games t.games LAST_GAMES_MAX)).1
        (streak_and_freq (get_team_games t.games LAST_GAMES_MAX)).2.1
        (streak_and_freq (get_team_games t.games LAST_GAMES_MAX)).2.2 ::
      candidatesOf country league_name ts

/-- The order produced by `sorted(candidates, key=lambda x: (x["streak"],
x["freq"], x["usable"]), reverse=True)` on run.py lines 250-254: `a` may
precede `b` exactly when `b`'s key tuple is lexicographically at most `a`'s. -/
def candGe (a b : Candidate) : Prop :=
  b.streak < a.streak ∨
    (b.streak = a.streak ∧
      (b.freq < a.freq ∨ (b.freq = a.freq ∧ b.usable ≤ a.usable)))

instance : DecidableRel candGe := fun a b => by unfold candGe; infer_instance

instance : IsTotal Candidate candGe := by
  constructor
  intro a b
  unfold candGe
  rcases Nat.lt_trichotomy a.streak b.streak with h | h | h
  · exact Or.inr (Or.inl h)
  · rcases lt_trichotomy a.freq b.freq with h2 | h2 | h2
    · exact Or.inr (Or.inr ⟨h, Or.inl h2⟩)
    · rcases Nat.le_total a.usable b.usable with h3 | h3
      · exact Or.inr (Or.inr ⟨h, Or.inr ⟨h2, h3⟩⟩)
      · exact Or.inl (Or.inr ⟨h.symm, Or.inr ⟨h2.symm, h3⟩⟩)
    · exact Or.inl (Or.inr ⟨h.symm, Or.inl h2⟩)
  · exact Or.inl (Or.inl h)

instance : IsTrans Candidate candGe := by
  constructor
  intro a b c hab hbc
  unfold candGe at hab hbc ⊢
  rcases hab with h1 | ⟨h1, h2⟩
  · rcases hbc with h3 | ⟨h3, _⟩
    · exact Or.inl (h3.trans h1)
    · exact Or.inl (h3 ▸ h1)
  · rcases hbc with h3 | ⟨h3, h4⟩
    · exact Or.inl (h1 ▸ h3)
    · refine Or.inr ⟨h3.trans h1, ?_⟩
      rcases h2 with h2 | ⟨h2, h5⟩
      · rcases h4 with h4 | ⟨h4, _⟩
        · exact Or.inl (h4.trans h2)
        · exact Or.inl (h4 ▸ h2)
      · rcases h4 with h4 | ⟨h4, h6⟩
        · exact Or.inl (h2 ▸ h4)
        · exact Or.inr ⟨h4.trans h2, h6.trans h5⟩

/-- run.py lines 249-256: sort the candidates by the descending composite key
(CPython `sorted` with `reverse=True` is stable, matched by `insertionSort`
with `candGe`) and keep the first `TOP_N`. -/
def rank (candidates : List Candidate) : List Candidate :=
  (List.insertionSort candGe candidates).take TOP_N

/-- Modelled from the spec: src/run.py contains no request counter, quota
check, or quota advisory (its `api_get` never counts calls), while the spec
describes the repository's API client as keeping a process-wide request
counter that is compared against the configured daily ceiling before each
call is sent, with a single advisory message and a clean abort (no ranking
report) when the ceiling is reached mid-run.  The final state of such a run:
`counter` calls actually sent, `advisories` messages sent, and whether the
ranking report was sent. -/
structure QuotaRun where
  counter : Nat
  advisories : Nat
  report_sent : Bool
deriving DecidableEq

/-- Modelled from the spec: `runWithQuota ceiling counter n` performs the `n`
remaining API calls of a run.  Before each call the counter is compared
against the ceiling; if it has reached the ceiling, exactly one advisory is
sent and the run aborts cleanly with no ranking report; otherwise the call is
sent, the counter is incremented, and the run continues.  When all calls
complete, the ranking report is sent. -/
def runWithQuota (ceiling : Nat) : Nat → Nat → QuotaRun
  | counter, 0 => ⟨counter, 0, true⟩
  | counter, n + 1 =>
    if ceiling ≤ counter then ⟨counter, 1, false⟩
    else runWithQuota ceiling (counter + 1) n

/-- A game whose observation is a hit: `0 + 0 < 1 + 0`. -/
def gameHit : Game := ⟨some 0, some 0, some 0, some 1, some 0⟩

/-- A game whose observation is a miss: `¬ (1 + 0 < 0 + 0)`. -/
def gameMiss : Game := ⟨some 0, some 1, some 0, some 0, some 0⟩

/-- A game whose observation is unknown: `scores.home.quarter_1` is absent. -/
def gameUnknown : Game := ⟨some 0, none, some 0, some 0, some 0⟩

/-- A team with a valid id and name but no games, hence `usable = 0`. -/
def teamNoData : TeamEntry := ⟨1, "NoData", []⟩

/-! ### Helper lemmas about the analyzer loop -/

lemma streak_and_freq_eq (gs : List Game) :
    streak_and_freq gs =
      ((gs.foldl sfStep sfInit).streak,
       if (gs.foldl sfStep sfInit).usable > 0
         then ((gs.foldl sfStep sfInit).ok_count : ℚ) /
                ((gs.foldl sfStep sfInit).usable : ℚ) * 100
         else 0,
       (gs.foldl sfStep sfInit).usable) := rfl

lemma sfStep_none (st : SFState) (g : Game) (h : condition_q1_lt_q2 g = none) :
    sfStep st g = st := by
  unfold sfStep
  rw [h]

lemma sfStep_usable (st : SFState) (g : Game) :
    (sfStep st g).usable ≤ st.usable + 1 := by
  unfold sfStep
  cases h : condition_q1_lt_q2 g with
  | none => simp
  | some c => cases c <;> simp <;> split <;> simp

lemma sfStep_ok_le_usable (st : SFState) (g : Game) (h : st.ok_count ≤ st.usable) :
    (sfStep st g).ok_count ≤ (sfStep st g).usable := by
  unfold sfStep
  cases hc : condition_q1_lt_q2 g with
  | none => exact h
  | some c => cases c <;> simp <;> split <;> simp <;> omega

lemma sfStep_streak_le_usable (st : SFState) (g : Game) (h : st.streak ≤ st.usable) :
    (sfStep st g).streak ≤ (sfStep st g).usable := by
  unfold sfStep
  cases hc : condition_q1_lt_q2 g with
  | none => exact h
  | some c => cases c <;> simp <;> split <;> simp <;> omega

lemma sfStep_inactive (st : SFState) (g : Game) (h : st.streak_active = false) :
    (sfStep st g).streak = st.streak ∧ (sfStep st g).streak_active = false := by
  unfold sfStep
  cases hc : condition_q1_lt_q2 g with
  | none => exact ⟨rfl, h⟩
  | some c => cases c <;> simp [h]

lemma foldl_ok_le_usable (gs : List Game) (st : SFState) (h : st.ok_count ≤ st.usable) :
    (gs.foldl sfStep st).ok_count ≤ (gs.foldl sfStep st).usable := by
  induction gs generalizing st with
  | nil => exact h
  | cons g gs ih => exact ih _ (sfStep_ok_le_usable st g h)

lemma foldl_streak_le_usable (gs : List Game) (st : SFState) (h : st.streak ≤ st.usable) :
    (gs.foldl sfStep st).streak ≤ (gs.foldl sfStep st).usable := by
  induction gs generalizing st with
  | nil => exact h
  | cons g gs ih => exact ih _ (sfStep_streak_le_usable st g h)

lemma foldl_usable_le (gs : List Game) (st : SFState) :
    (gs.foldl sfStep st).usable ≤ st.usable + gs.length := by
  induction gs generalizing st with
  | nil => simp
  | cons g gs ih =>
    have h1 := ih (sfStep st g)
    have h2 := sfStep_usable st g
    simp only [List.foldl_cons, List.length_cons]
    omega

lemma foldl_inactive (gs : List Game) (st : SFState) (h : st.streak_active = false) :
    (gs.foldl sfStep st).streak = st.streak := by
  induction gs generalizing st with
  | nil => rfl
  | cons g gs ih =>
    obtain ⟨h1, h2⟩ := sfStep_inactive st g h
    simp only [List.foldl_cons]
    rw [ih _ h2, h1]

lemma usable_le_window (games : List Game) (n : Nat) :
    (streak_and_freq (get_team_games games n)).2.2 ≤ n := by
  rw [streak_and_freq_eq]
  have h1 := foldl_usable_le (get_team_games games n) sfInit
  have h2 : (get_team_games games n).length ≤ n := by
    unfold get_team_games
    rw [List.length_take]
    exact Nat.min_le_left _ _
  simp only [sfInit] at h1
  simpa using h1.trans (by omega)

/-! ### Quota model lemma -/

lemma runWithQuota_eq (ceiling n : Nat) :
    ∀ counter : Nat,
      runWithQuota ceiling counter n =
        ⟨counter + min n (ceiling - counter),
         if ceiling - counter < n then 1 else 0,
         decide (n ≤ ceiling - counter)⟩ := by
  induction n with
  | zero => intro counter; simp [runWithQuota]
  | succ n ih =>
    intro counter
    unfold runWithQuota
    split
    · rename_i hc
      have h0 : ceiling - counter = 0 := by omega
      simp [h0]
    · rename_i hc
      rw [ih (counter + 1)]
      simp only [QuotaRun.mk.injEq]
      refine ⟨by omega, ?_, ?_⟩
      · split_ifs <;> omega
      · rw [decide_eq_decide]; omega

/-! ### Claim theorems -/

/-- C4: `condition_q1_lt_q2` returns `unknown` (`none`) exactly when one of
the four quarter fields is absent; when all four are present (a score of `0`
included), it returns hit (`some true`) iff `homeQ1 + awayQ1 < homeQ2 +
awayQ2` and miss (`some false`) when the first sum is greater or equal. -/
theorem condition_q1_lt_q2_spec :
    (∀ g : Game, condition_q1_lt_q2 g = none ↔
      (g.homeQ1 = none ∨ g.awayQ1 = none ∨ g.homeQ2 = none ∨ g.awayQ2 = none)) ∧
    (∀ (d : Option Nat) (q1 q1a q2 q2a : Int),
      (condition_q1_lt_q2 ⟨d, some q1, some q1a, some q2, some q2a⟩ = some true ↔
        q1 + q1a < q2 + q2a) ∧
      (condition_q1_lt_q2 ⟨d, some q1, some q1a, some q2, some q2a⟩ = some false ↔
        q2 + q2a ≤ q1 + q1a)) := by
  constructor
  · intro g
    rcases g with ⟨d, h1, a1, h2, a2⟩
    cases h1 <;> cases a1 <;> cases h2 <;> cases a2 <;> simp [condition_q1_lt_q2]
  · intro d q1 q1a q2 q2a
    constructor
    · simp [condition_q1_lt_q2]
    · simp [condition_q1_lt_q2]

/-- C6: for every fetched game list and window size, the analyzer satisfies
`streak ≤ usable` and `usable ≤ window`; in particular with the configured
window `LAST_GAMES_MAX` at most 15 games are counted. -/
theorem streak_le_usable_le_window (games : List Game) (n : Nat) :
    (streak_and_freq (get_team_games games n)).1 ≤
      (streak_and_freq (get_team_games games n)).2.2 ∧
    (streak_and_freq (get_team_games games n)).2.2 ≤ n ∧
    (streak_and_freq (get_team_games games LAST_GAMES_MAX)).2.2 ≤ 15 := by
  refine ⟨?_, usable_le_window games n, usable_le_window games LAST_GAMES_MAX⟩
  rw [streak_and_freq_eq]
  exact foldl_streak_le_usable _ sfInit (Nat.le_refl 0)

/-- C7: for the observation sequence [hit, hit, miss, hit] (most recent
first) the analyzer returns streak 2, frequency 75% (3 hits), usable 4. -/
theorem scenario_hit_hit_miss_hit :
    streak_and_freq [gameHit, gameHit, gameMiss, gameHit] = (2, 75, 4) ∧
    (List.foldl sfStep sfInit [gameHit, gameHit, gameMiss, gameHit]).ok_count = 3 := by
  have hfold : List.foldl sfStep sfInit [gameHit, gameHit, gameMiss, gameHit] =
      ⟨4, 3, 2, false⟩ := by decide
  refine ⟨?_, ?_⟩
  · rw [streak_and_freq_eq, hfold]
    norm_num
  · rw [hfold]

/-- C8: if the most recent game's observation is a miss, the streak is 0. -/
theorem miss_first_streak_zero (g : Game) (gs : List Game)
    (h : condition_q1_lt_q2 g = some false) :
    (streak_and_freq (g :: gs)).1 = 0 := by
  show ((g :: gs).foldl sfStep sfInit).streak = 0
  have hstep : sfStep sfInit g = ⟨1, 0, 0, false⟩ := by
    unfold sfStep; rw [h]; decide
  rw [List.foldl_cons, hstep]
  exact foldl_inactive gs ⟨1, 0, 0, false⟩ rfl

/-- Witness for C8 at the concrete input [miss, hit]. -/
theorem miss_first_streak_zero_witness :
    condition_q1_lt_q2 gameMiss = some false ∧
    (streak_and_freq [gameMiss, gameHit]).1 = 0 :=
  ⟨by decide, miss_first_streak_zero gameMiss [gameHit] (by decide)⟩

/-- C1 counterexample: on the input [unknown, hit, hit] the code returns
streak 2, not 0 — the `continue` on run.py line 169 skips the unknown game
instead of stopping the streak scan. -/
theorem unknown_first_streak_not_zero :
    ¬ ((streak_and_freq [gameUnknown, gameHit, gameHit]).1 = 0) := by
  decide

/-- C1 (amended): a game with an unknown observation is skipped transparently
by the whole loop — it is excluded from `usable` and hits and the streak scan
continues past it unchanged — so prepending an unknown game leaves the whole
result of `streak_and_freq` unchanged; for [unknown, hit, hit] the result is
streak 2, usable 2, hits 2. -/
theorem streak_and_freq_skips_unknown (g : Game) (gs : List Game)
    (h : condition_q1_lt_q2 g = none) :
    streak_and_freq (g :: gs) = streak_and_freq gs := by
  have hfold : (g :: gs).foldl sfStep sfInit = gs.foldl sfStep sfInit := by
    rw [List.foldl_cons, sfStep_none sfInit g h]
  rw [streak_and_freq_eq, streak_and_freq_eq, hfold]

/-- Witness for the amended C1 at the concrete input [unknown, hit, hit]. -/
theorem streak_and_freq_skips_unknown_witness :
    condition_q1_lt_q2 gameUnknown = none ∧
    streak_and_freq [gameUnknown, gameHit, gameHit] = streak_and_freq [gameHit, gameHit] ∧
    (streak_and_freq [gameUnknown, gameHit, gameHit]).1 = 2 ∧
    (streak_and_freq [gameUnknown, gameHit, gameHit]).2.2 = 2 ∧
    (List.foldl sfStep sfInit [gameUnknown, gameHit, gameHit]).ok_count = 2 :=
  ⟨by decide, streak_and_freq_skips_unknown gameUnknown [gameHit, gameHit] (by decide),
    by decide, by decide, by decide⟩

/-- C10: `streak_and_freq` is total (a Lean function) and its frequency is
always in [0, 100], with frequency 0 when no game is usable (no division by
zero occurs: the `usable > 0` guard selects the constant 0 branch). -/
theorem freq_bounds (gs : List Game) :
    0 ≤ (streak_and_freq gs).2.1 ∧ (streak_and_freq gs).2.1 ≤ 100 ∧
    ((streak_and_freq gs).2.2 = 0 → (streak_and_freq gs).2.1 = 0) := by
  have hok := foldl_ok_le_usable gs sfInit (Nat.le_refl 0)
  rw [streak_and_freq_eq]
  refine ⟨?_, ?_, ?_⟩
  · split_ifs with hu
    · positivity
    · norm_num
  · split_ifs with hu
    · have h1 : ((gs.foldl sfStep sfInit).ok_count : ℚ) /
          ((gs.foldl sfStep sfInit).usable : ℚ) ≤ 1 := by
        apply div_le_one_of_le₀
        · exact_mod_cast hok
        · positivity
      calc ((gs.foldl sfStep sfInit).ok_count : ℚ) /
            ((gs.foldl sfStep sfInit).usable : ℚ) * 100
          ≤ 1 * 100 := mul_le_mul_of_nonneg_right h1 (by norm_num)
        _ = 100 := by norm_num
    · norm_num
  · intro h
    have hu0 : (gs.foldl sfStep sfInit).usable = 0 := h
    show (if (gs.foldl sfStep sfInit).usable > 0
        then ((gs.foldl sfStep sfInit).ok_count : ℚ) /
               ((gs.foldl sfStep sfInit).usable : ℚ) * 100
        else 0) = 0
    rw [if_neg (by omega)]

/-- Witness for C10: the inner implication discharged at the empty list. -/
theorem freq_bounds_witness : (streak_and_freq ([] : List Game)).2.1 = 0 :=
  (freq_bounds []).2.2 rfl

/-- C9: a team whose analyzed games yield `usable = 0` contributes no
candidate: removing it from the team list leaves the candidate list (and
hence the ranking built from it) unchanged, because the `usable < 5` filter
on run.py line 236 skips it. -/
theorem usable_zero_excluded (country league_name : String)
    (l1 l2 : List TeamEntry) (t : TeamEntry)
    (h : (streak_and_freq (get_team_games t.games LAST_GAMES_MAX)).2.2 = 0) :
    candidatesOf country league_name (l1 ++ t :: l2) =
      candidatesOf country league_name (l1 ++ l2) := by
  induction l1 with
  | nil =>
    simp only [List.nil_append]
    simp only [candidatesOf]
    rw [h]
    rw [if_pos (by norm_num : (0 : Nat) < 5)]
    exact ite_self _
  | cons a l1 ih =>
    simp only [List.cons_append]
    simp only [candidatesOf]
    rw [ih]

/-- Witness for C9 at a concrete team with no games. -/
theorem usable_zero_excluded_witness :
    (streak_and_freq (get_team_games teamNoData.games LAST_GAMES_MAX)).2.2 = 0 ∧
    candidatesOf "Spain" "ACB" [teamNoData] = candidatesOf "Spain" "ACB" [] :=
  ⟨by decide, usable_zero_excluded "Spain" "ACB" [] [] teamNoData (by decide)⟩

/-- C5: the ranking is sorted non-increasing by the composite key
(streak, frequency) with ties broken by usable count (the `candGe` order),
is truncated to at most `TOP_N = 10` entries, and the empty input yields the
empty output rather than an error. -/
theorem rank_sorted_truncated :
    (∀ cs : List Candidate, List.Sorted candGe (rank cs)) ∧
    (∀ cs : List Candidate, (rank cs).length ≤ TOP_N) ∧
    rank [] = [] ∧ TOP_N = 10 := by
  refine ⟨?_, ?_, rfl, rfl⟩
  · intro cs
    exact List.Pairwise.sublist (List.take_sublist _ _)
      (List.sorted_insertionSort candGe cs)
  · intro cs
    unfold rank
    rw [List.length_take]
    exact Nat.min_le_left _ _

/-- C3 (modelled from the spec, run.py has no request counter): every sent
call increments the counter, the counter is compared against the ceiling
before each call so it never exceeds the ceiling, and when the ceiling is
reached mid-run exactly one advisory is sent and the run aborts with no
ranking report. -/
theorem quota_counter_spec (ceiling n : Nat) :
    (runWithQuota ceiling 0 n).counter = min n ceiling ∧
    (runWithQuota ceiling 0 n).counter ≤ ceiling ∧
    (runWithQuota ceiling 0 n).advisories = (if ceiling < n then 1 else 0) ∧
    (runWithQuota ceiling 0 n).report_sent = decide (n ≤ ceiling) := by
  rw [runWithQuota_eq ceiling n 0]
  refine ⟨by simp, ?_, by simp, by simp⟩
  simp only [Nat.zero_add, Nat.sub_zero]
  omega

/-- C2 (code bug): `api_get` never retries.  Every branch of its loop body
returns or raises on the first attempt (the backoff sleep on run.py line 74
is unreachable dead code after the `return` on line 71), so a first attempt
answering HTTP 500 makes the call fail immediately even when every later
attempt would succeed, and the result never depends on the retry budget. -/
theorem api_get_no_retry :
    api_get true (fun i => if i = 0 then Attempt.json 500 false ([] : List Nat)
      else Attempt.json 200 false [0]) 3 = Except.error "HTTP status error" ∧
    ∀ (g : Nat → Attempt Nat) (n m : Nat),
      api_get_loop g 0 (n + 1) = api_get_loop g 0 (m + 1) :=
  ⟨rfl, fun _ _ _ => rfl⟩

end BasketStreakBot
